import Mathlib

/-!
Verification of the nyaaan logging backend (src/src/lib.rs) against its
natural-language specification.  The Rust source is shallowly embedded:
the log-crate severity order, the Logger struct with its global level and
append-only per-crate override list, the filtering decision, the colorized
line formatter, the panic-hook message construction, and the
OnceLock-based process lifecycle are all modelled as pure Lean functions.
-/

namespace Nyaaan

/-- The log crate's Level enumeration (Error is most severe). -/
inductive Level where
  | error
  | warn
  | info
  | debug
  | trace
deriving DecidableEq, Repr

/-- Discriminant of the log crate's Level enum (Error = 1 .. Trace = 5);
the derived PartialOrd used by the source compares these. -/
def Level.ord : Level → Nat
  | .error => 1
  | .warn => 2
  | .info => 3
  | .debug => 4
  | .trace => 5

/-- The comparison behind the Rust expression metadata.level() <= level. -/
def Level.le (a b : Level) : Bool :=
  decide (a.ord ≤ b.ord)

/-- Level::as_str of the log crate: canonical upper-case short names. -/
def Level.as_str : Level → String
  | .error => "ERROR"
  | .warn => "WARN"
  | .info => "INFO"
  | .debug => "DEBUG"
  | .trace => "TRACE"

/-- str::eq_ignore_ascii_case, used by the log crate's Level parser. -/
def eqIgnoreAsciiCase (a b : String) : Bool :=
  a.data.map Char.toLower == b.data.map Char.toLower

/-- LOG_LEVEL_NAMES of the log crate (index 0 is the OFF filter, which is
not a valid Level). -/
def LOG_LEVEL_NAMES : List String :=
  ["OFF", "ERROR", "WARN", "INFO", "DEBUG", "TRACE"]

/-- Level::from_usize of the log crate. -/
def Level.from_usize : Nat → Option Level
  | 1 => some .error
  | 2 => some .warn
  | 3 => some .info
  | 4 => some .debug
  | 5 => some .trace
  | _ => none

/-- FromStr for Level of the log crate: case-insensitive position lookup in
LOG_LEVEL_NAMES, rejecting index 0 (OFF). -/
def parseLevel (s : String) : Option Level :=
  match LOG_LEVEL_NAMES.findIdx? (fun name => eqIgnoreAsciiCase name s) with
  | some idx => if idx ≠ 0 then Level.from_usize idx else none
  | none => none

/-- Does a two-colon separator occur anywhere in the character list? -/
def hasSep : List Char → Bool
  | [] => false
  | c :: rest => if c = ':' ∧ rest.head? = some ':' then true else hasSep rest

/-- First fragment of Rust's target.split("::"): the characters before the
first occurrence of the separator (the whole list when none occurs). -/
def crateNameChars : List Char → List Char
  | [] => []
  | c :: rest =>
    if c = ':' ∧ rest.head? = some ':' then []
    else c :: crateNameChars rest

/-- The source's metadata.target().split("::").next().unwrap(). -/
def crateName (target : String) : String :=
  String.mk (crateNameChars target.data)

/-- The Logger struct of the source: a global level plus an append-only
list of (crate name, level) overrides.  The Mutex wrappers only serialize
access and are not part of the functional state. -/
structure Logger where
  log_level : Level
  crate_levels : List (String × Level)
deriving DecidableEq, Repr

/-- Logger::new. -/
def Logger.new (level : Level) : Logger :=
  ⟨level, []⟩

/-- Logger::set_level (the method on the struct). -/
def Logger.set_level (self : Logger) (level : Level) : Logger :=
  { self with log_level := level }

/-- The for-loop of Logger::enabled: scan the override list in order and
return on the first name equal to the crate name; fall through to the
global level. -/
def Logger.enabledAux (lvl : Level) (cn : String) (g : Level) :
    List (String × Level) → Bool
  | [] => Level.le lvl g
  | (name, l) :: rest =>
    if cn = name then Level.le lvl l else Logger.enabledAux lvl cn g rest

/-- Logger::enabled of the Log impl. -/
def Logger.enabled (self : Logger) (lvl : Level) (target : String) : Bool :=
  Logger.enabledAux lvl (crateName target) self.log_level self.crate_levels

/-- The .push of the crate_levels vector inside set_crate_log. -/
def Logger.push_crate_level (self : Logger) (target : String) (level : Level) :
    Logger :=
  { self with crate_levels := self.crate_levels ++ [(target, level)] }

/-- Declarative effective threshold, following the spec's words: first
entry in insertion order whose component matches, else the global level. -/
def effective_threshold (self : Logger) (component : String) : Level :=
  match self.crate_levels.find? (fun e => e.1 == component) with
  | some e => e.2
  | none => self.log_level

theorem enabledAux_eq_find (lvl g : Level) (cn : String)
    (cl : List (String × Level)) :
    Logger.enabledAux lvl cn g cl =
      Level.le lvl
        (match cl.find? (fun e => e.1 == cn) with
         | some e => e.2
         | none => g) := by
  induction cl with
  | nil => rfl
  | cons e rest ih =>
    obtain ⟨name, l⟩ := e
    by_cases h : cn = name
    · simp [Logger.enabledAux, List.find?, h]
    · have h' : (name == cn) = false := by
        simp only [beq_eq_false_iff_ne, ne_eq]
        exact fun hc => h hc.symm
      simp only [Logger.enabledAux, if_neg h, List.find?]
      rw [h']
      exact ih

theorem enabled_eq_effective (l : Logger) (lvl : Level) (t : String) :
    l.enabled lvl t = Level.le lvl (effective_threshold l (crateName t)) := by
  unfold Logger.enabled effective_threshold
  exact enabledAux_eq_find lvl l.log_level (crateName t) l.crate_levels

/-- C1: the filtering decision scans the override list in insertion order
and uses the severity of the first entry whose stored name equals the
event's component identifier, falling back to the global level; after
registering (C, Info) and then (C, Error), the effective threshold for C
is Info (the first match wins; the later entry is shadowed). -/
theorem enabled_first_match_wins :
    (∀ (l : Logger) (lvl : Level) (t : String),
      l.enabled lvl t = Level.le lvl (effective_threshold l (crateName t))) ∧
    (∀ (l : Logger) (C : String) (lvl : Level),
      (∀ e ∈ l.crate_levels, e.1 ≠ C) →
      effective_threshold
          ((l.push_crate_level C .info).push_crate_level C .error) C
        = .info ∧
      Logger.enabledAux lvl C l.log_level
          ((l.push_crate_level C .info).push_crate_level C .error).crate_levels
        = Level.le lvl .info) := by
  refine ⟨enabled_eq_effective, ?_⟩
  intro l C lvl hno
  have hnone : l.crate_levels.find? (fun e => e.1 == C) = none := by
    rw [List.find?_eq_none]
    intro x hx
    simpa using hno x hx
  have heff : effective_threshold
      ((l.push_crate_level C .info).push_crate_level C .error) C = .info := by
    unfold effective_threshold Logger.push_crate_level
    simp only [List.append_assoc, List.find?_append, hnone, Option.none_or]
    simp [List.find?]
  refine ⟨heff, ?_⟩
  have := enabledAux_eq_find lvl l.log_level C
    ((l.push_crate_level C .info).push_crate_level C .error).crate_levels
  rw [this]
  have hfind : (((l.push_crate_level C .info).push_crate_level
      C .error).crate_levels).find? (fun e => e.1 == C) = some (C, .info) := by
    unfold Logger.push_crate_level
    simp only [List.append_assoc, List.find?_append, hnone, Option.none_or]
    simp [List.find?]
  rw [hfind]

/-- Closed instance of enabled_first_match_wins: starting from a logger
with an unrelated override, registering (app, Info) then (app, Error)
leaves Info as the effective threshold for app. -/
theorem enabled_first_match_wins_inst :
    effective_threshold
        ((Logger.push_crate_level
            (Logger.push_crate_level ⟨.warn, [("other", .debug)]⟩ "app" .info)
            "app" .error)) "app" = .info ∧
    Logger.enabledAux .debug "app" .warn
        ((Logger.push_crate_level
            (Logger.push_crate_level ⟨.warn, [("other", .debug)]⟩ "app" .info)
            "app" .error)).crate_levels = Level.le .debug .info :=
  enabled_first_match_wins.2 ⟨.warn, [("other", .debug)]⟩ "app" .debug
    (by decide)

/-- C2: is_enabled is true iff the event's severity ordinal is at most the
effective threshold's ordinal (boundary inclusive); with no override and
global threshold Warn, a Warn event is enabled and an Info event is not. -/
theorem enabled_boundary_inclusive :
    (∀ (l : Logger) (lvl : Level) (t : String),
      l.enabled lvl t = true ↔
        lvl.ord ≤ (effective_threshold l (crateName t)).ord) ∧
    (∀ (l : Logger) (t : String),
      l.crate_levels = [] → l.log_level = .warn →
      l.enabled .warn t = true ∧ l.enabled .info t = false) := by
  constructor
  · intro l lvl t
    rw [enabled_eq_effective]
    unfold Level.le
    exact decide_eq_true_iff
  · intro l t hcl hll
    obtain ⟨g, cl⟩ := l
    simp only at hcl hll
    subst hcl
    subst hll
    constructor <;> rfl

/-- Closed instance of enabled_boundary_inclusive: with global threshold
Warn and no overrides, Warn is shown and Info is not. -/
theorem enabled_boundary_inclusive_inst :
    Logger.enabled ⟨.warn, []⟩ .warn "app" = true ∧
    Logger.enabled ⟨.warn, []⟩ .info "app" = false :=
  enabled_boundary_inclusive.2 ⟨.warn, []⟩ "app" rfl rfl

theorem crateNameChars_of_no_sep : ∀ l, hasSep l = false → crateNameChars l = l := by
  intro l
  induction l with
  | nil => intro _; rfl
  | cons c rest ih =>
    intro h
    unfold hasSep at h
    by_cases hc : c = ':' ∧ rest.head? = some ':'
    · rw [if_pos hc] at h
      exact absurd h (by simp)
    · rw [if_neg hc] at h
      unfold crateNameChars
      rw [if_neg hc, ih h]

theorem crateNameChars_sep (suf : List Char) :
    ∀ pre, hasSep pre = false → pre.getLast? ≠ some ':' →
      crateNameChars (pre ++ ':' :: ':' :: suf) = pre := by
  intro pre
  induction pre with
  | nil =>
    intro _ _
    simp [crateNameChars]
  | cons c rest ih =>
    intro hsep hlast
    have hstep : ¬ (c = ':' ∧ (rest ++ ':' :: ':' :: suf).head? = some ':') := by
      cases rest with
      | nil =>
        rintro ⟨hc, -⟩
        exact hlast (by simp [hc])
      | cons d rest' =>
        rintro ⟨hc, hd⟩
        simp only [List.cons_append, List.head?_cons, Option.some.injEq] at hd
        unfold hasSep at hsep
        rw [if_pos ⟨hc, by simp [hd]⟩] at hsep
        exact absurd hsep (by simp)
    have hsep' : hasSep rest = false := by
      unfold hasSep at hsep
      by_cases hcc : c = ':' ∧ rest.head? = some ':'
      · rw [if_pos hcc] at hsep
        exact absurd hsep (by simp)
      · rw [if_neg hcc] at hsep
        exact hsep
    have hlast' : rest.getLast? ≠ some ':' := by
      cases rest with
      | nil => simp
      | cons d rest' =>
        intro hcon
        exact hlast (by rw [List.getLast?_cons_cons]; exact hcon)
    show crateNameChars (c :: (rest ++ ':' :: ':' :: suf)) = c :: rest
    unfold crateNameChars
    rw [if_neg hstep]
    rw [ih hsep' hlast']

theorem crateNameChars_lt_of_sep : ∀ l, hasSep l = true →
    (crateNameChars l).length < l.length := by
  intro l
  induction l with
  | nil => intro h; exact absurd h (by simp [hasSep])
  | cons c rest ih =>
    intro h
    by_cases hc : c = ':' ∧ rest.head? = some ':'
    · unfold crateNameChars
      rw [if_pos hc]
      simp
    · unfold hasSep at h
      rw [if_neg hc] at h
      unfold crateNameChars
      rw [if_neg hc]
      simp only [List.length_cons]
      exact Nat.succ_lt_succ (ih h)

/-- C9: the override lookup key is the part of the target before the first
two-colon separator (the whole target when none occurs); a target that
contains a separator is never itself the key, and the filtering decision
depends on the target only through that derived key. -/
theorem crate_name_before_first_sep :
    (∀ t : String, hasSep t.data = false → crateName t = t) ∧
    (∀ (pre suf : List Char), hasSep pre = false → pre.getLast? ≠ some ':' →
      crateName (String.mk (pre ++ ':' :: ':' :: suf)) = String.mk pre) ∧
    (∀ t : String, hasSep t.data = true → crateName t ≠ t) ∧
    (∀ (l : Logger) (lvl : Level) (t₁ t₂ : String),
      crateName t₁ = crateName t₂ → l.enabled lvl t₁ = l.enabled lvl t₂) := by
  refine ⟨?_, ?_, ?_, ?_⟩
  · intro t h
    unfold crateName
    rw [crateNameChars_of_no_sep t.data h]
  · intro pre suf h1 h2
    show String.mk (crateNameChars (pre ++ ':' :: ':' :: suf)) = String.mk pre
    rw [crateNameChars_sep suf pre h1 h2]
  · intro t h heq
    have hdata : crateNameChars t.data = t.data := congrArg String.data heq
    have hlt := crateNameChars_lt_of_sep t.data h
    rw [hdata] at hlt
    exact Nat.lt_irrefl _ hlt
  · intro l lvl t₁ t₂ heq
    unfold Logger.enabled
    rw [heq]

/-- Closed instance of crate_name_before_first_sep at concrete targets. -/
theorem crate_name_before_first_sep_inst :
    crateName "app" = "app" ∧
    crateName (String.mk ("app".data ++ ':' :: ':' :: "module".data)) = "app" ∧
    crateName "app::module" ≠ "app::module" :=
  ⟨crate_name_before_first_sep.1 "app" (by decide),
   crate_name_before_first_sep.2.1 "app".data "module".data (by decide)
     (by decide),
   crate_name_before_first_sep.2.2.1 "app::module" (by decide)⟩

/-- The ANSI colors used by the source via the colored crate. -/
inductive Color where
  | red
  | yellow
  | green
  | blue
  | purple
  | black
  | brightBlack
  | brightRed
  | brightBlue
deriving DecidableEq, Repr

/-- ANSI SGR code emitted by the colored crate for each color. -/
def Color.code : Color → String
  | .red => "31"
  | .yellow => "33"
  | .green => "32"
  | .blue => "34"
  | .purple => "35"
  | .black => "30"
  | .brightBlack => "90"
  | .brightRed => "91"
  | .brightBlue => "94"

/-- A colored crate ColoredString: input text plus foreground color. -/
structure ColoredString where
  text : String
  color : Color
deriving DecidableEq, Repr

/-- Display of a ColoredString: SGR color on, text, reset. -/
def ColoredString.render (c : ColoredString) : String :=
  "\x1b[" ++ c.color.code ++ "m" ++ c.text ++ "\x1b[0m"

/-- Logger::colorize of the source: the fixed severity-to-color mapping
applied to the level's as_str name. -/
def Logger.colorize (level : Level) : ColoredString :=
  match level with
  | .error => ⟨level.as_str, .red⟩
  | .warn => ⟨level.as_str, .yellow⟩
  | .info => ⟨level.as_str, .green⟩
  | .debug => ⟨level.as_str, .blue⟩
  | .trace => ⟨level.as_str, .purple⟩

/-- The line built by the eprintln call in Logger::log: bright-black
timestamp, colorized level, bright-blue target, bare message, joined by
the literal format string of the source, plus eprintln's newline. -/
def formatLine (ts : String) (lvl : Level) (target msg : String) : String :=
  ColoredString.render ⟨ts, .brightBlack⟩ ++ " " ++
    (Logger.colorize lvl).render ++ ": " ++
    ColoredString.render ⟨target, .brightBlue⟩ ++ " - " ++ msg ++ "\n"

/-- Logger::log of the Log impl.  The write outcome of the underlying
stderr stream is an explicit parameter; modelled from std, eprintln!
panics (message "failed printing to stderr") when that write fails, so
the result is an Except whose error is the panic.  On success the emitted
line is returned; a filtered event yields none. -/
def Logger.log (self : Logger) (ts : String) (lvl : Level)
    (target msg : String) (writeOk : Bool) : Except String (Option String) :=
  if self.enabled lvl target then
    if writeOk then .ok (some (formatLine ts lvl target msg))
    else .error "failed printing to stderr"
  else .ok none

/-- Spec-side severity-to-color table, written from the spec's words. -/
def specColor : Level → Color
  | .error => .red
  | .warn => .yellow
  | .info => .green
  | .debug => .blue
  | .trace => .purple

/-- C5: an accepted event is rendered as the muted (bright-black)
timestamp, the colorized canonical level name (Error red, Warn yellow,
Info green, Debug blue, Trace purple), the accent (bright-blue) target
and the uncolored message, joined by the fixed separators with a trailing
newline; the message passes through verbatim. -/
theorem log_line_format (l : Logger) (ts : String) (lvl : Level)
    (target msg : String) (h : l.enabled lvl target = true) :
    l.log ts lvl target msg true =
      .ok (some (ColoredString.render ⟨ts, .brightBlack⟩ ++ " " ++
        ColoredString.render ⟨Level.as_str lvl, specColor lvl⟩ ++ ": " ++
        ColoredString.render ⟨target, .brightBlue⟩ ++ " - " ++ msg ++ "\n")) := by
  have hc : Logger.colorize lvl = ⟨Level.as_str lvl, specColor lvl⟩ := by
    cases lvl <;> rfl
  simp [Logger.log, h, formatLine, hc]

/-- Closed instance of log_line_format: the exact line for an Info event. -/
theorem log_line_format_inst :
    Logger.log ⟨.trace, []⟩ "2024-01-01 12:00:00" .info "app" "hello" true =
      .ok (some ("\x1b[90m2024-01-01 12:00:00\x1b[0m \x1b[32mINFO\x1b[0m: \x1b[94mapp\x1b[0m - hello\n")) :=
  log_line_format ⟨.trace, []⟩ "2024-01-01 12:00:00" .info "app" "hello"
    (by decide)

/-- C8 counterexample: emit does not swallow write failures.  With an
enabled event and a failing stderr write, Logger::log's eprintln! panics
(the error result below) instead of returning normally, so a failure of
the underlying write does propagate to the caller. -/
theorem log_write_failure_cex :
    Logger.log ⟨.trace, []⟩ "ts" .info "app" "m" false =
      .error "failed printing to stderr" := by
  rfl

/-- C8 amended: a disabled event is a no-op, and a successful write
returns normally; but when the event is enabled and the underlying write
fails, the failure is not swallowed: eprintln! panics with "failed
printing to stderr", which propagates to the caller. -/
theorem log_error_path (l : Logger) (ts : String) (lvl : Level)
    (target msg : String) :
    (∀ w, l.enabled lvl target = false → l.log ts lvl target msg w = .ok none) ∧
    (l.enabled lvl target = true →
      l.log ts lvl target msg false = .error "failed printing to stderr" ∧
      l.log ts lvl target msg true =
        .ok (some (formatLine ts lvl target msg))) := by
  constructor
  · intro w h
    unfold Logger.log
    rw [h]
    rfl
  · intro h
    constructor <;> simp [Logger.log, h]

/-- Closed instance of log_error_path: disabled no-op and enabled panic. -/
theorem log_error_path_inst :
    Logger.log ⟨.error, []⟩ "ts" .info "app" "m" false = .ok none ∧
    Logger.log ⟨.trace, []⟩ "ts" .warn "app" "m" false =
      .error "failed printing to stderr" :=
  ⟨(log_error_path ⟨.error, []⟩ "ts" .info "app" "m").1 false (by decide),
   ((log_error_path ⟨.trace, []⟩ "ts" .warn "app" "m").2 (by decide)).1⟩

/-- Split a character list at every line feed (the separator itself is
dropped; a trailing line feed yields a final empty segment). -/
def splitLF : List Char → List (List Char)
  | [] => [[]]
  | c :: rest =>
    if c = '\n' then [] :: splitLF rest
    else
      match splitLF rest with
      | [] => [[c]]
      | p :: ps => (c :: p) :: ps

/-- Drop one trailing carriage return, as Rust's str::lines does for a
segment that was terminated by a line feed. -/
def stripCRChars (l : List Char) : List Char :=
  if l.getLast? = some '\r' then l.dropLast else l

/-- Rust's str::lines on a character list: split on line feeds, strip a
carriage return from every line-feed-terminated segment, and drop the
final empty segment produced by a trailing line feed. -/
def rustLinesChars (l : List Char) : List (List Char) :=
  if l.isEmpty then []
  else
    let parts := splitLF l
    let body := parts.dropLast.map stripCRChars
    match parts.getLast? with
    | none => []
    | some last => if last.isEmpty then body else body ++ [last]

/-- Rust's str::lines. -/
def rustLines (s : String) : List String :=
  (rustLinesChars s.data).map String.mk

/-- Rust's char::is_whitespace: the Unicode White_Space property.  The
members are tab, line feed, vertical tab, form feed, carriage return,
space, next line, no-break space, ogham space mark, the en-quad through
hair-space block, line separator, paragraph separator, narrow no-break
space, medium mathematical space and ideographic space. -/
def isRustWhitespace (c : Char) : Bool :=
  let n := c.toNat
  n = 0x09 ∨ n = 0x0A ∨ n = 0x0B ∨ n = 0x0C ∨ n = 0x0D ∨ n = 0x20 ∨
    n = 0x85 ∨ n = 0xA0 ∨ n = 0x1680 ∨ (0x2000 ≤ n ∧ n ≤ 0x200A) ∨
    n = 0x2028 ∨ n = 0x2029 ∨ n = 0x202F ∨ n = 0x205F ∨ n = 0x3000

/-- Rust's str::trim on a character list. -/
def rustTrim (l : List Char) : List Char :=
  ((l.dropWhile isRustWhitespace).reverse.dropWhile isRustWhitespace).reverse

/-- The closure mapped over the enumerated payload lines in the panic
hook: a blank (empty after trim) line becomes empty, the index-0 line
stays as written, and every later line gets the fixed marker prepended. -/
def mapLine (i : Nat) (line : String) : String :=
  if (rustTrim line.data).isEmpty then ""
  else if i = 0 then line
  else "\t\t||  " ++ line

/-- The enumerate/map/filter pipeline of the panic hook applied to the
payload's lines: empty results are filtered out. -/
def processLines (ls : List String) : List String :=
  (ls.enum.map (fun p => mapLine p.1 p.2)).filter (fun line => !line.isEmpty)

/-- The payload re-indentation of the panic hook: process the payload's
lines and rejoin them with line feeds. -/
def reindent (payload : String) : String :=
  String.intercalate "\n" (processLines (rustLines payload))

theorem marker_append_not_empty (l : String) :
    ("\t\t||  " ++ l).isEmpty = false := by
  rw [Bool.eq_false_iff]
  intro h
  rw [String.isEmpty_iff] at h
  have hz : ("\t\t||  " ++ l).length = 0 := by rw [h]; rfl
  rw [String.length_append] at hz
  have h6 : ("\t\t||  " : String).length = 6 := by decide
  rw [h6] at hz
  omega

theorem nonblank_not_empty (l : String) (h : (rustTrim l.data).isEmpty = false) :
    l.isEmpty = false := by
  rw [Bool.eq_false_iff]
  intro he
  rw [String.isEmpty_iff] at he
  subst he
  exact absurd h (by decide)

theorem processLines_tail (n : Nat) (hn : n ≠ 0) :
    ∀ ls : List String, (∀ l ∈ ls, (rustTrim l.data).isEmpty = false) →
      ((ls.enumFrom n).map (fun p => mapLine p.1 p.2)).filter
          (fun line => !line.isEmpty) =
        ls.map (fun l => "\t\t||  " ++ l) := by
  intro ls
  induction ls generalizing n with
  | nil => intro _; rfl
  | cons l rest ih =>
    intro hall
    have hl : (rustTrim l.data).isEmpty = false := hall l (List.mem_cons_self l rest)
    have hml : mapLine n l = "\t\t||  " ++ l := by
      unfold mapLine
      rw [hl]
      simp [hn]
    rw [List.enumFrom_cons, List.map_cons, List.filter_cons]
    rw [hml, marker_append_not_empty]
    simp only [Bool.not_false, if_pos]
    rw [ih (n + 1) (Nat.succ_ne_zero n) (fun x hx => hall x (List.mem_cons_of_mem l hx))]
    rfl

/-- C6 counterexample: re-indenting the payload "boom\n  detail" keeps the
second line's own leading whitespace after the marker, so the second line
is two tabs, two pipes and four spaces before "detail" — not the two
spaces the claim states. -/
theorem reindent_example_cex :
    reindent "boom\n  detail" = "boom\n\t\t||    detail" ∧
    ("boom\n\t\t||    detail" : String) ≠ "boom\n\t\t||  detail" := by
  constructor
  · decide
  · decide

/-- C6 amended: the payload is split on line breaks, blank (empty or
whitespace-only) lines map to empty strings and are filtered out, the
index-0 line is kept unprefixed, and every later kept line gets the
marker (two tabs, two pipes, two spaces) prepended to the line as
written, preserving the line's own leading whitespace; hence the payload
"boom\n  detail" re-indents with second line two tabs, two pipes and four
spaces before "detail". -/
theorem reindent_spec :
    (∀ (i : Nat) (l : String), (rustTrim l.data).isEmpty = true → mapLine i l = "") ∧
    (∀ (l0 : String) (ls : List String),
      (rustTrim l0.data).isEmpty = false →
      (∀ l ∈ ls, (rustTrim l.data).isEmpty = false) →
      processLines (l0 :: ls) = l0 :: ls.map (fun l => "\t\t||  " ++ l)) ∧
    reindent "boom\n  detail" = "boom\n\t\t||    detail" := by
  refine ⟨?_, ?_, by decide⟩
  · intro i l h
    unfold mapLine
    rw [h]
    rfl
  · intro l0 ls h0 hall
    unfold processLines
    have h00 : mapLine 0 l0 = l0 := by
      unfold mapLine
      rw [h0]
      rfl
    rw [List.enum_cons, List.map_cons, List.filter_cons, h00,
      nonblank_not_empty l0 h0]
    simp only [Bool.not_false, if_pos]
    rw [processLines_tail 1 (by omega) ls hall]

/-- Closed instance of reindent_spec: a blank line is dropped, a nonblank
first line is kept bare and a later line is marker-prefixed. -/
theorem reindent_spec_inst :
    mapLine 3 " \t " = "" ∧
    processLines ["boom", "  detail"] = ["boom", "\t\t||    detail"] :=
  ⟨reindent_spec.1 3 " \t " (by decide),
   reindent_spec.2.1 "boom" ["  detail"] (by decide) (by decide)⟩

/-- A panic's source location as provided by the runtime. -/
structure PanicLocation where
  file : String
  line : Nat
  column : Nat
deriving DecidableEq, Repr

/-- The location string of the hook: file, line and column joined with
colons, or the literal marker when the runtime gives no location. -/
def locationText (loc : Option PanicLocation) : String :=
  match loc with
  | some p => p.file ++ ":" ++ toString p.line ++ ":" ++ toString p.column
  | none => "Unknown location"

/-- The panic payload: either downcastable to text or not. -/
inductive PanicPayload where
  | text (s : String)
  | other
deriving DecidableEq, Repr

/-- The payload extraction of the hook: the carried text, or the literal
marker for a non-textual payload. -/
def payloadText : PanicPayload → String
  | .text s => s
  | .other => "Unknown Payload"

/-- The instructional message substituted when RUST_BACKTRACE is unset. -/
def BACKTRACE_HINT : String :=
  "  Run with RUST_BACKTRACE=1 environment variable to display backtrace"

/-- The panic report of the hook installed by init: location, re-indented
payload and trace section filled into the fixed template.  The trace text
is the captured backtrace if the RUST_BACKTRACE variable is set to any
value, else the instructional hint; in both cases every line of it then
gets the two-tabs-and-pipe marker prepended. -/
def panicMessage (location payload : String) (rust_backtrace : Option String)
    (captured : String) : String :=
  let payloadR := reindent payload
  let traceRaw :=
    match rust_backtrace with
    | some _ => captured
    | none => BACKTRACE_HINT
  let trace :=
    String.intercalate "\n" ((rustLines traceRaw).map (fun line => "\t\t|" ++ line))
  "Panic occurred at: " ++ ColoredString.render ⟨location, .black⟩ ++
    "\n\t\t-----------------> " ++ ColoredString.render ⟨payloadR, .brightRed⟩ ++
    "\n" ++ trace

/-- The single event emitted by the hook: Error severity with the
composed report, routed to the logger via the log facade. -/
def panicEvent (loc : Option PanicLocation) (payload : PanicPayload)
    (rust_backtrace : Option String) (captured : String) : Level × String :=
  (.error, panicMessage (locationText loc) (payloadText payload)
    rust_backtrace captured)

theorem hint_marker_applied :
    String.intercalate "\n"
        ((rustLines BACKTRACE_HINT).map (fun line => "\t\t|" ++ line)) =
      "\t\t|" ++ BACKTRACE_HINT := by
  decide

/-- C7 counterexample: with the backtrace toggle absent, the trace section
is not the bare instructional message: the hook applies the line marker
unconditionally, so the instructional message also appears behind two
tabs and a pipe. -/
theorem panic_trace_cex :
    panicEvent (some ⟨"f.rs", 1, 2⟩) (.text "boom") none "cap" =
      (Level.error,
        "Panic occurred at: \x1b[30mf.rs:1:2\x1b[0m\n\t\t-----------------> \x1b[91mboom\x1b[0m\n\t\t|  Run with RUST_BACKTRACE=1 environment variable to display backtrace") ∧
    ("Panic occurred at: \x1b[30mf.rs:1:2\x1b[0m\n\t\t-----------------> \x1b[91mboom\x1b[0m\n\t\t|  Run with RUST_BACKTRACE=1 environment variable to display backtrace" : String) ≠
      "Panic occurred at: \x1b[30mf.rs:1:2\x1b[0m\n\t\t-----------------> \x1b[91mboom\x1b[0m\n  Run with RUST_BACKTRACE=1 environment variable to display backtrace" := by
  constructor
  · decide
  · decide

/-- C7 amended: every intercepted panic composes exactly one
Error-severity event from the fixed template, with the location in muted
black and the re-indented payload in bright red; the trace section is the
captured backtrace when the backtrace toggle is set to any value and the
instructional message when it is absent, and in either case every line of
that trace text is prefixed with two tabs and a pipe. -/
theorem panic_event_template (loc : Option PanicLocation)
    (payload : PanicPayload) (captured v : String) :
    panicEvent loc payload none captured =
      (Level.error,
        "Panic occurred at: " ++
          ColoredString.render ⟨locationText loc, .black⟩ ++
          "\n\t\t-----------------> " ++
          ColoredString.render ⟨reindent (payloadText payload), .brightRed⟩ ++
          "\n" ++ ("\t\t|" ++ BACKTRACE_HINT)) ∧
    panicEvent loc payload (some v) captured =
      (Level.error,
        "Panic occurred at: " ++
          ColoredString.render ⟨locationText loc, .black⟩ ++
          "\n\t\t-----------------> " ++
          ColoredString.render ⟨reindent (payloadText payload), .brightRed⟩ ++
          "\n" ++ String.intercalate "\n"
            ((rustLines captured).map (fun line => "\t\t|" ++ line))) := by
  constructor
  · simp only [panicEvent, panicMessage]
    rw [hint_marker_applied]
  · rfl

/-- The log crate's SetLoggerError: a logger was already registered. -/
inductive SetLoggerError where
  | mk
deriving DecidableEq, Repr

/-- The log crate's LevelFilter, set by log::set_max_level. -/
inductive LevelFilter where
  | off
  | error
  | warn
  | info
  | debug
  | trace
deriving DecidableEq, Repr

/-- A Rust panic observed by the embedding (Option::unwrap on None). -/
inductive RustPanic where
  | unwrapNone
deriving DecidableEq, Repr

/-- The process environment read by init: RUST_LOG for the initial level
and RUST_BACKTRACE for the backtrace toggle (none when unset). -/
structure Env where
  rust_log : Option String
  rust_backtrace : Option String
deriving DecidableEq, Repr

/-- Process-wide mutable state: the LOGGER OnceLock cell, whether the log
facade already has a registered sink, the facade's max level, and whether
the panic hook is installed. -/
structure ProcessState where
  logger : Option Logger
  facadeSet : Bool
  maxLevel : LevelFilter
  hookInstalled : Bool
deriving DecidableEq, Repr

/-- init of the source: get-or-init the LOGGER cell (parsing RUST_LOG with
an Info default for the first call), unconditionally reinstall the panic
hook, then register with the log facade; registration fails with
SetLoggerError if a sink is already active, and only on success is the
facade max level raised to Trace. -/
def init (env : Env) (ps : ProcessState) :
    Except SetLoggerError Unit × ProcessState :=
  let logger :=
    match ps.logger with
    | some l => l
    | none =>
      let env_level := env.rust_log.getD "info"
      let level := (parseLevel env_level).getD .info
      Logger.new level
  let ps1 : ProcessState := { ps with logger := some logger, hookInstalled := true }
  if ps1.facadeSet then (.error .mk, ps1)
  else (.ok (), { ps1 with facadeSet := true, maxLevel := .trace })

/-- Free function set_level of the source: unwrap the LOGGER cell (a
panic when empty) and set the global level. -/
def set_level (ps : ProcessState) (level : Level) :
    Except RustPanic ProcessState :=
  match ps.logger with
  | none => .error .unwrapNone
  | some l => .ok { ps with logger := some (l.set_level level) }

/-- set_crate_log of the source: unwrap the LOGGER cell (a panic when
empty) and push the (target, level) pair onto the override list. -/
def set_crate_log (ps : ProcessState) (target : String) (level : Level) :
    Except RustPanic ProcessState :=
  match ps.logger with
  | none => .error .unwrapNone
  | some l => .ok { ps with logger := some (l.push_crate_level target level) }

/-- get_raw_logger of the source: unwrap the LOGGER cell. -/
def get_raw_logger (ps : ProcessState) : Except RustPanic Logger :=
  match ps.logger with
  | none => .error .unwrapNone
  | some l => .ok l

theorem init_sets_logger (env : Env) (ps : ProcessState) :
    ∃ l, (init env ps).2.logger = some l := by
  rcases hL : ps.logger with _ | l
  · exact ⟨Logger.new ((parseLevel (env.rust_log.getD "info")).getD .info),
      by by_cases hf : ps.facadeSet = true <;> simp [init, hL, hf]⟩
  · exact ⟨l, by by_cases hf : ps.facadeSet = true <;> simp [init, hL, hf]⟩

/-- C3: the singleton is created at most once: a first init constructs the
logger, every later init keeps the existing instance, and when the log
facade already has an active sink init returns the SetLoggerError failure
while the existing singleton's state is unchanged. -/
theorem init_get_or_create :
    (∀ (env : Env) (ps : ProcessState), ps.logger = none →
      (init env ps).2.logger =
        some (Logger.new ((parseLevel (env.rust_log.getD "info")).getD .info))) ∧
    (∀ (env : Env) (ps : ProcessState) (l : Logger), ps.logger = some l →
      (init env ps).2.logger = some l) ∧
    (∀ (env : Env) (ps : ProcessState) (l : Logger), ps.logger = some l →
      ps.facadeSet = true →
      (init env ps).1 = .error .mk ∧ (init env ps).2.logger = some l) := by
  refine ⟨?_, ?_, ?_⟩
  · intro env ps h
    by_cases hf : ps.facadeSet = true <;> simp [init, h, hf]
  · intro env ps l h
    by_cases hf : ps.facadeSet = true <;> simp [init, h, hf]
  · intro env ps l h hf
    constructor <;> simp [init, h, hf]

/-- Closed instance of init_get_or_create: a second init with an active
sink fails and keeps the configured singleton. -/
theorem init_get_or_create_inst :
    (init ⟨none, none⟩ ⟨some ⟨.warn, [("app", .debug)]⟩, true, .trace, true⟩).1 =
      .error .mk ∧
    (init ⟨none, none⟩ ⟨some ⟨.warn, [("app", .debug)]⟩, true, .trace, true⟩).2.logger =
      some ⟨.warn, [("app", .debug)]⟩ :=
  init_get_or_create.2.2 ⟨none, none⟩
    ⟨some ⟨.warn, [("app", .debug)]⟩, true, .trace, true⟩
    ⟨.warn, [("app", .debug)]⟩ rfl rfl

/-- C4: init's result never depends on the RUST_LOG text (it fails only
when the facade already has a sink), and on a first call with RUST_LOG
absent or unparseable the created global threshold is Info. -/
theorem init_level_default_info :
    (∀ (env : Env) (ps : ProcessState),
      (init env ps).1 = if ps.facadeSet then .error .mk else .ok ()) ∧
    (∀ (env : Env) (ps : ProcessState), ps.logger = none →
      (match env.rust_log with
       | none => True
       | some s => parseLevel s = none) →
      (init env ps).2.logger = some (Logger.new .info)) := by
  constructor
  · intro env ps
    by_cases hf : ps.facadeSet = true
    · simp [init, hf]
    · simp only [Bool.not_eq_true] at hf
      simp [init, hf]
  · intro env ps hl hp
    rcases he : env.rust_log with _ | s
    · by_cases hf : ps.facadeSet = true <;> simp [init, hl, he, hf, parseLevel,
        LOG_LEVEL_NAMES, eqIgnoreAsciiCase, List.findIdx?, Level.from_usize]
    · rw [he] at hp
      by_cases hf : ps.facadeSet = true <;> simp [init, hl, he, hf, hp]

/-- Closed instance of init_level_default_info: RUST_LOG set to the
unparseable "verbose" still yields an Info-level logger and a successful
init. -/
theorem init_level_default_info_inst :
    (init ⟨some "verbose", none⟩ ⟨none, false, .off, false⟩).1 = .ok () ∧
    (init ⟨some "verbose", none⟩ ⟨none, false, .off, false⟩).2.logger =
      some (Logger.new .info) :=
  ⟨by rw [init_level_default_info.1 ⟨some "verbose", none⟩
      ⟨none, false, .off, false⟩]; rfl,
   init_level_default_info.2 ⟨some "verbose", none⟩ ⟨none, false, .off, false⟩
     rfl (by decide)⟩

/-- C10: with the LOGGER cell still empty, set_level, set_crate_log and
get_raw_logger all panic (unwrap on None); after any init call all three
succeed. -/
theorem config_requires_init :
    (∀ (ps : ProcessState) (level : Level) (target : String),
      ps.logger = none →
      set_level ps level = .error .unwrapNone ∧
      set_crate_log ps target level = .error .unwrapNone ∧
      get_raw_logger ps = .error .unwrapNone) ∧
    (∀ (env : Env) (ps : ProcessState) (level : Level) (target : String),
      (set_level (init env ps).2 level).isOk = true ∧
      (set_crate_log (init env ps).2 target level).isOk = true ∧
      (get_raw_logger (init env ps).2).isOk = true) := by
  constructor
  · intro ps level target h
    refine ⟨?_, ?_, ?_⟩ <;> simp [set_level, set_crate_log, get_raw_logger, h]
  · intro env ps level target
    obtain ⟨l, hl⟩ := init_sets_logger env ps
    refine ⟨?_, ?_, ?_⟩ <;>
      simp [set_level, set_crate_log, get_raw_logger, hl, Except.isOk,
        Except.toBool]

/-- Closed instance of config_requires_init: the three accessors panic on
the empty cell and succeed after init. -/
theorem config_requires_init_inst :
    (set_level ⟨none, false, .off, false⟩ .warn = .error .unwrapNone ∧
      set_crate_log ⟨none, false, .off, false⟩ "app" .warn = .error .unwrapNone ∧
      get_raw_logger ⟨none, false, .off, false⟩ = .error .unwrapNone) ∧
    (get_raw_logger (init ⟨none, none⟩ ⟨none, false, .off, false⟩).2).isOk = true :=
  ⟨config_requires_init.1 ⟨none, false, .off, false⟩ .warn "app" rfl,
   (config_requires_init.2 ⟨none, none⟩ ⟨none, false, .off, false⟩ .warn
     "app").2.2⟩

end Nyaaan
